import Mathlib

/-!
Shallow embedding of the archive-assembly core of AssemblingTheDreamXXL.

Embedded source files:
  * `src/gtnh/assembler/multi_poly.py` (`MMCAssembler`): mod/config writing,
    side validation, MMC metadata injection.
  * `src/gtnh/gui.py`: `download_mods`, `pack_clientpack`,
    `ArchiveFrame._progress_callback`.

The base class `GenericAssembler` (`generic_assembler.py`) is not part of the
source tree given here; the pieces of it the claims need (`update_progress`,
the `assemble` driver) are modelled from the spec and marked as such.

Zip archives are modelled as lists of named entries, in write order.  Progress
callbacks are modelled by a function `Nat → Bool` deciding, per invocation
index, whether the callback raises; the deltas handed to the callback are
recorded in an event list.  All arithmetic on progress percentages is done in
`ℚ` (the Python code uses floats; none of the proved properties depends on
rounding of the float representation).
-/

/-- One entry of a zip archive: its in-archive name and raw content bytes
(modelled as a `String`). -/
structure ZipEntry where
  name : String
  content : String
deriving DecidableEq

/-- Modelled from the spec: `Side` enumeration (`gtnh/defs.py` is not in the
source tree).  The assembler-level side is CLIENT or SERVER (§3 of the spec);
the per-mod affinity BOTH only occurs as a string on `ModInfo.side` below,
mirroring `gui.py`'s string comparisons. -/
inductive Side where
  | CLIENT
  | SERVER
deriving DecidableEq

/-- A (mod, version) reference, as iterated by `MMCAssembler.add_mods`.  The
actual cache path is produced by the collaborator
`get_asset_version_cache_location`, passed as a function parameter. -/
structure ModRef where
  name : String
  version : String
deriving DecidableEq

/-- State threaded through one `assemble` run: the entries written to the
output archive so far, and the progress deltas reported to the callback so
far (one element per callback invocation, in order). -/
structure AsmState where
  entries : List ZipEntry
  events : List ℚ
deriving DecidableEq

/-- Modelled from the spec: the per-report progress increment of
`GenericAssembler.update_progress` (`generic_assembler.py` is not in the
source tree).  §8: each step reports `100 / total_steps`, with
`total_steps = count(included mods) + 1`. -/
def progress_delta (total_steps : Nat) : ℚ := 100 / (total_steps : ℚ)

/-- Modelled from the spec: `GenericAssembler.update_progress` invokes the
progress callback synchronously with the step's delta; a callback exception
propagates (aborts).  `cb k = true` means the callback raises at its `k`-th
invocation; the invocation counter is the number of events recorded so far.
On a raise nothing is recorded and the current state is returned as the
error payload. -/
def update_progress (cb : Nat → Bool) (delta : ℚ) (st : AsmState) :
    Except AsmState AsmState :=
  if cb st.events.length then .error st
  else .ok { st with events := st.events ++ [delta] }

/-- `MMCAssembler.__init__`: `Path(f"GT New Horizons {self.release.version}")`. -/
def mmc_archive_root (version : String) : String :=
  "GT New Horizons " ++ version

/-- `MMCAssembler.__init__`: `self.mmc_archive_root / ".minecraft"`. -/
def mmc_modpack_files (version : String) : String :=
  mmc_archive_root version ++ "/.minecraft"

/-- `MMCAssembler.__init__`: `self.mmc_modpack_files / "mods"`. -/
def mmc_modpack_mods (version : String) : String :=
  mmc_modpack_files version ++ "/mods"

/-- `pathlib.Path.name`: the final component of a `/`-separated path,
extracted on the underlying character list (mod cache paths never end in a
separator). -/
def path_name (p : String) : String :=
  String.mk ((p.data.reverse.takeWhile (fun c => c != '/')).reverse)

/-- `MMCAssembler.add_mods`: for each (mod, version) pair, resolve the cached
source file, report progress (`update_progress`, which may raise), then write
the file at `self.mmc_modpack_mods / source_file.name`.  `cache_loc` models
`get_asset_version_cache_location`; `read_file` models reading the source
file's bytes. -/
def add_mods (cache_loc : ModRef → String) (read_file : String → String)
    (cb : Nat → Bool) (total_steps : Nat) (version : String) :
    List ModRef → AsmState → Except AsmState AsmState
  | [], st => .ok st
  | m :: ms, st =>
    match update_progress cb (progress_delta total_steps) st with
    | .error st1 => .error st1
    | .ok st1 =>
      add_mods cache_loc read_file cb total_steps version ms
        { st1 with
          entries := st1.entries ++
            [⟨mmc_modpack_mods version ++ "/" ++ path_name (cache_loc m),
              read_file (cache_loc m)⟩] }

/-- `MMCAssembler.add_config`: report progress once, then for every entry
name of the config bundle zip (`namelist`, in enumeration order), skip it if
it is in `self.exclusions[side]`, otherwise copy its raw bytes to
`str(self.mmc_modpack_files) + "/" + item` (string concatenation, so a
trailing `/` of a directory entry is preserved).  `read_entry` models
`config_zip.open(item).read()`. -/
def add_config (exclusions : Side → List String) (namelist : List String)
    (read_entry : String → String) (cb : Nat → Bool) (total_steps : Nat)
    (version : String) (side : Side) (st : AsmState) :
    Except AsmState AsmState :=
  match update_progress cb (progress_delta total_steps) st with
  | .error st1 => .error st1
  | .ok st1 =>
    .ok { st1 with
      entries := st1.entries ++
        (namelist.filter (fun item => decide (item ∉ exclusions side))).map
          (fun item =>
            ⟨mmc_modpack_files version ++ "/" ++ item, read_entry item⟩) }

/-- Modelled from the spec: `GenericAssembler.assemble`
(`generic_assembler.py` is not in the source tree).  §4.1: write the included
mods in manifest order, then unpack-and-filter the config bundle; one
progress report per mod and one for the config step, with
`total_steps = count(included mods) + 1` (§8). -/
def generic_assemble (cache_loc : ModRef → String)
    (read_file read_entry : String → String)
    (exclusions : Side → List String) (cb : Nat → Bool) (version : String)
    (mods : List ModRef) (namelist : List String) (side : Side) :
    Except AsmState AsmState :=
  match add_mods cache_loc read_file cb (mods.length + 1) version mods ⟨[], []⟩ with
  | .error st => .error st
  | .ok st =>
    add_config exclusions namelist read_entry cb (mods.length + 1) version side st

/-- Modelled from the spec: `MMC_PACK_JSON` (`gtnh/defs.py` is not in the
source tree) — a fixed, format-defined JSON payload; its exact bytes are a
static constant not derived from the release, which is all the claims use. -/
def MMC_PACK_JSON : String := "mmc-pack-static-json-payload"

/-- `MMCAssembler.add_mmc_meta_data`: reopen the archive in append mode and
write `str(self.mmc_archive_root) + "/mmc-pack.json"` with the static
`MMC_PACK_JSON` content.  Appending to a zip adds one entry at the end and
leaves the existing entries untouched. -/
def add_mmc_meta_data (version : String) (entries : List ZipEntry) :
    List ZipEntry :=
  entries ++ [⟨mmc_archive_root version ++ "/mmc-pack.json", MMC_PACK_JSON⟩]

/-- Outcome of `MMCAssembler.assemble`: success with the final archive
entries, a `ValueError` for an invalid side, or a propagated callback
exception; the failure constructors carry the archive entries written before
the abort. -/
inductive MMCResult where
  | ok (entries : List ZipEntry)
  | invalidSide (written : List ZipEntry)
  | callbackExc (written : List ZipEntry)
deriving DecidableEq

/-- `MMCAssembler.assemble`: raise `ValueError` when `side != Side.CLIENT`
(before any archive I/O), otherwise run `GenericAssembler.assemble` and then
(`side == Side.CLIENT` necessarily holds there) `add_mmc_meta_data`. -/
def mmc_assemble (cache_loc : ModRef → String)
    (read_file read_entry : String → String)
    (exclusions : Side → List String) (cb : Nat → Bool) (version : String)
    (mods : List ModRef) (namelist : List String) (side : Side) : MMCResult :=
  if side ≠ Side.CLIENT then .invalidSide []
  else
    match generic_assemble cache_loc read_file read_entry exclusions cb version
        mods namelist side with
    | .error st => .callbackExc st.entries
    | .ok st => .ok (add_mmc_meta_data version st.entries)

/-- Trailing-separator test on an in-archive name, via the underlying
character list.  Mirrors `zipfile.ZipInfo.is_dir()`: an entry is a directory
marker exactly when its name ends with `/`. -/
def is_dir_name (s : String) : Bool :=
  s.data.getLast? == some '/'

/-- `zipfile.ZipInfo.is_dir()` lifted to modelled entries. -/
def zip_entry_is_dir (e : ZipEntry) : Bool :=
  is_dir_name e.name

/-- A mod's metadata as read by `gui.download_mods`: its name and its side
affinity, a string compared against "BOTH"/"CLIENT"/"SERVER" exactly as the
source does. -/
structure ModInfo where
  name : String
  side : String
deriving DecidableEq

/-- The `for mod in gtnh_modpack.github_mods` loop of `gui.download_mods`:
each mod's downloaded paths are appended to the client list, the server
list, both, or neither, depending on `mod.side`.  `download` models
`download_mod(github, organization, mod)`. -/
def download_mods_loop (download : ModInfo → List String) :
    List ModInfo → List String → List String → List String × List String
  | [], client_paths, server_paths => (client_paths, server_paths)
  | mod :: ms, client_paths, server_paths =>
    let paths := download mod
    if mod.side = "BOTH" then
      download_mods_loop download ms (client_paths ++ paths) (server_paths ++ paths)
    else if mod.side = "CLIENT" then
      download_mods_loop download ms (client_paths ++ paths) server_paths
    else if mod.side = "SERVER" then
      download_mods_loop download ms client_paths (server_paths ++ paths)
    else
      download_mods_loop download ms client_paths server_paths

/-- Failure modes of the gui packing helpers that the claims exercise. -/
inductive PackError where
  | zeroDivision
deriving DecidableEq

/-- `gui.download_mods`: computes `delta_progress = 100 / len(github_mods)`
up front — a `ZeroDivisionError` when the mod list is empty — then runs the
download loop.  (The per-mod progress callback does not affect the returned
collections and is omitted.) -/
def download_mods (download : ModInfo → List String) (mods : List ModInfo) :
    Except PackError (List String × List String) :=
  if mods.length = 0 then .error .zeroDivision
  else .ok (download_mods_loop download mods [] [])

/-- `gui.pack_clientpack`: computes `delta_progress = 100 / len(client_paths)`
up front — a `ZeroDivisionError` when the list is empty — then writes each
path into `client-{pack_version}.zip` under its path relative to the client
archive cache directory (`arcname` models `Path.relative_to`). -/
def pack_clientpack (read_file : String → String) (arcname : String → String)
    (client_paths : List String) (pack_version : String) :
    Except PackError (String × List ZipEntry) :=
  if client_paths.length = 0 then .error .zeroDivision
  else
    .ok ("client-" ++ pack_version ++ ".zip",
      client_paths.map (fun p => ⟨arcname p, read_file p⟩))

/-- `float(format(value, ".2f"))` of `ArchiveFrame._progress_callback`:
rounding to two decimal places, modelled in `ℚ`.  (Python rounds the decimal
rendering of the float half-to-even; the exact rounding direction is
immaterial to every property proved about this function.) -/
def round2 (q : ℚ) : ℚ :=
  ((q * 100 + 1 / 2).floor : ℚ) / 100

/-- One call of `ArchiveFrame._progress_callback` acting on the progress
bar's value: `value += delta` then
`value = min(100.0, float(format(value, ".2f")))`. -/
def progress_callback_value (value : ℚ) (delta : ℚ) : ℚ :=
  min 100 (round2 (value + delta))

/-- The archive contents after a (possibly aborted) run: on an abort the
entries written before the exception. -/
def run_entries : Except AsmState AsmState → List ZipEntry
  | .ok st => st.entries
  | .error st => st.entries

/-- The progress deltas reported during a (possibly aborted) run. -/
def run_events : Except AsmState AsmState → List ℚ
  | .ok st => st.events
  | .error st => st.events

/-- Concatenation of per-mod download results, used to state what
`download_mods` accumulates for each side. -/
def concat_map (f : ModInfo → List String) : List ModInfo → List String
  | [] => []
  | m :: ms => f m ++ concat_map f ms

/-! ### String helper lemmas -/

theorem string_eq_of_data_eq {s t : String} (h : s.data = t.data) : s = t := by
  cases s
  cases t
  exact congrArg String.mk h

theorem string_append_left_cancel {a b c : String} (h : a ++ b = a ++ c) :
    b = c := by
  have hd : a.data ++ b.data = a.data ++ c.data := by
    have h2 := congrArg String.data h
    simpa [String.data_append] using h2
  exact string_eq_of_data_eq (List.append_cancel_left hd)

theorem mmc_mod_path_eq (version x : String) :
    mmc_modpack_mods version ++ "/" ++ x =
      "GT New Horizons " ++ version ++ "/.minecraft/mods/" ++ x := by
  have h1 : ("/mods" : String) ++ "/" = "/mods/" := rfl
  have h2 : ("/.minecraft" : String) ++ "/mods/" = "/.minecraft/mods/" := rfl
  show ((("GT New Horizons " ++ version) ++ "/.minecraft") ++ "/mods") ++ "/" ++ x =
    (("GT New Horizons " ++ version) ++ "/.minecraft/mods/") ++ x
  rw [String.append_assoc (("GT New Horizons " ++ version) ++ "/.minecraft") "/mods" "/",
    h1, String.append_assoc ("GT New Horizons " ++ version) "/.minecraft" "/mods/", h2]

theorem mmc_config_path_eq (version x : String) :
    mmc_modpack_files version ++ "/" ++ x =
      "GT New Horizons " ++ version ++ "/.minecraft/" ++ x := by
  have h1 : ("/.minecraft" : String) ++ "/" = "/.minecraft/" := rfl
  show (("GT New Horizons " ++ version) ++ "/.minecraft") ++ "/" ++ x =
    (("GT New Horizons " ++ version) ++ "/.minecraft/") ++ x
  rw [String.append_assoc ("GT New Horizons " ++ version) "/.minecraft" "/", h1]

theorem is_dir_name_append (a b : String) (h : is_dir_name b = true) :
    is_dir_name (a ++ b) = true := by
  unfold is_dir_name at h ⊢
  have hb : b.data.getLast? = some '/' := by
    simpa using h
  rw [String.data_append, List.getLast?_append, hb]
  rfl

/-! ### Run lemmas for the assembler, with a never-raising callback -/

theorem add_mods_ok (cache_loc : ModRef → String) (read_file : String → String)
    (total_steps : Nat) (version : String) :
    ∀ (mods : List ModRef) (st : AsmState),
      add_mods cache_loc read_file (fun _ => false) total_steps version mods st =
        .ok ⟨st.entries ++ mods.map (fun m =>
              ⟨mmc_modpack_mods version ++ "/" ++ path_name (cache_loc m),
               read_file (cache_loc m)⟩),
             st.events ++ List.replicate mods.length (progress_delta total_steps)⟩ := by
  intro mods
  induction mods with
  | nil => intro st; simp [add_mods]
  | cons m ms ih =>
    intro st
    simp [add_mods, update_progress, ih, List.replicate_succ]

theorem add_config_ok (exclusions : Side → List String) (namelist : List String)
    (read_entry : String → String) (total_steps : Nat) (version : String)
    (side : Side) (st : AsmState) :
    add_config exclusions namelist read_entry (fun _ => false) total_steps version side st =
      .ok ⟨st.entries ++
            (namelist.filter (fun item => decide (item ∉ exclusions side))).map
              (fun item =>
                ⟨mmc_modpack_files version ++ "/" ++ item, read_entry item⟩),
           st.events ++ [progress_delta total_steps]⟩ := by
  simp [add_config, update_progress]

theorem generic_assemble_ok (cache_loc : ModRef → String)
    (read_file read_entry : String → String) (exclusions : Side → List String)
    (version : String) (mods : List ModRef) (namelist : List String)
    (side : Side) :
    generic_assemble cache_loc read_file read_entry exclusions (fun _ => false)
        version mods namelist side =
      .ok ⟨(mods.map (fun m =>
              ⟨mmc_modpack_mods version ++ "/" ++ path_name (cache_loc m),
               read_file (cache_loc m)⟩)) ++
           ((namelist.filter (fun item => decide (item ∉ exclusions side))).map
              (fun item =>
                ⟨mmc_modpack_files version ++ "/" ++ item, read_entry item⟩)),
           List.replicate mods.length (progress_delta (mods.length + 1)) ++
             [progress_delta (mods.length + 1)]⟩ := by
  simp [generic_assemble, add_mods_ok, add_config_ok]

/-! ### Claim theorems -/

/-- C1: for every side and every entry name of the config bundle zip, the
entry appears in the output archive's config tree (written at
`mmc_modpack_files / item`) if and only if its relative path is not in that
side's exclusion set — no excluded path appears, no non-excluded path is
missing. -/
theorem c1_config_filter_iff (exclusions : Side → List String)
    (namelist : List String) (read_entry : String → String)
    (total_steps : Nat) (version : String) (side : Side) :
    ∀ item : String,
      (mmc_modpack_files version ++ "/" ++ item) ∈
          (run_entries (add_config exclusions namelist read_entry
            (fun _ => false) total_steps version side ⟨[], []⟩)).map ZipEntry.name ↔
        (item ∈ namelist ∧ item ∉ exclusions side) := by
  intro item
  rw [add_config_ok]
  simp only [run_entries, List.nil_append, List.map_map, List.mem_map,
    Function.comp, List.mem_filter, decide_eq_true_eq]
  constructor
  · rintro ⟨i, ⟨hi, hni⟩, hEq⟩
    have h2 : ("/" : String) ++ i = "/" ++ item := by
      have h3 := string_append_left_cancel
        (a := mmc_modpack_files version) (b := "/" ++ i) (c := "/" ++ item)
      apply h3
      rw [← String.append_assoc, ← String.append_assoc]
      exact hEq
    have h4 : i = item := string_append_left_cancel h2
    subst h4
    exact ⟨hi, hni⟩
  · rintro ⟨hi, hni⟩
    exact ⟨item, ⟨hi, hni⟩, rfl⟩

/-- C4: in the MMC archive, every mod binary lands at
`GT New Horizons <version>/.minecraft/mods/<flat filename>` (only the source
file's base name), every non-excluded config entry `e` lands at
`GT New Horizons <version>/.minecraft/<e>`, and the archive root is
`GT New Horizons <version>` (also carrying the trailing `mmc-pack.json`
metadata entry at the root). -/
theorem c4_mmc_layout (cache_loc : ModRef → String)
    (read_file read_entry : String → String) (exclusions : Side → List String)
    (version : String) (mods : List ModRef) (namelist : List String) :
    mmc_archive_root version = "GT New Horizons " ++ version ∧
    mmc_assemble cache_loc read_file read_entry exclusions (fun _ => false)
        version mods namelist Side.CLIENT =
      .ok ((mods.map (fun m =>
              ⟨"GT New Horizons " ++ version ++ "/.minecraft/mods/" ++
                 path_name (cache_loc m),
               read_file (cache_loc m)⟩)) ++
           ((namelist.filter (fun item => decide (item ∉ exclusions Side.CLIENT))).map
              (fun item =>
                ⟨"GT New Horizons " ++ version ++ "/.minecraft/" ++ item,
                 read_entry item⟩)) ++
           [⟨"GT New Horizons " ++ version ++ "/mmc-pack.json", MMC_PACK_JSON⟩]) := by
  refine ⟨rfl, ?_⟩
  simp [mmc_assemble, generic_assemble_ok, add_mmc_meta_data, mmc_mod_path_eq,
    mmc_config_path_eq, mmc_archive_root, List.append_assoc]

/-- C8: across one full `assemble` run (with a callback that never raises),
the progress callback is invoked exactly `count(mods) + 1` times — once per
included mod plus once for the config step — and the reported deltas sum to
exactly 100 (the model computes in `ℚ`, so the "within rounding" allowance
is not even needed). -/
theorem c8_progress_accounting (cache_loc : ModRef → String)
    (read_file read_entry : String → String) (exclusions : Side → List String)
    (version : String) (mods : List ModRef) (namelist : List String)
    (side : Side) :
    (generic_assemble cache_loc read_file read_entry exclusions
        (fun _ => false) version mods namelist side).isOk = true ∧
    (run_events (generic_assemble cache_loc read_file read_entry exclusions
        (fun _ => false) version mods namelist side)).length = mods.length + 1 ∧
    (run_events (generic_assemble cache_loc read_file read_entry exclusions
        (fun _ => false) version mods namelist side)).sum = 100 := by
  rw [generic_assemble_ok]
  refine ⟨rfl, by simp [run_events], ?_⟩
  simp only [run_events, List.sum_append, List.sum_replicate, List.sum_cons,
    List.sum_nil, nsmul_eq_mul, progress_delta]
  have hne : ((mods.length : ℚ) + 1) ≠ 0 := by positivity
  push_cast
  field_simp
  ring

/-- C3: the MMC `assemble` raises its invalid-argument `ValueError` exactly
when the requested side is not CLIENT, and in that case nothing has been
written at the destination (the rejection precedes all archive I/O). -/
theorem c3_invalid_side_rejection (cache_loc : ModRef → String)
    (read_file read_entry : String → String) (exclusions : Side → List String)
    (cb : Nat → Bool) (version : String) (mods : List ModRef)
    (namelist : List String) (side : Side) :
    ((∃ written, mmc_assemble cache_loc read_file read_entry exclusions cb
        version mods namelist side = .invalidSide written) ↔
      side ≠ Side.CLIENT) ∧
    (side ≠ Side.CLIENT →
      mmc_assemble cache_loc read_file read_entry exclusions cb version mods
        namelist side = .invalidSide []) := by
  cases side with
  | CLIENT =>
    refine ⟨⟨?_, fun h => absurd rfl h⟩, fun h => absurd rfl h⟩
    rintro ⟨written, hw⟩
    rcases hgen : generic_assemble cache_loc read_file read_entry exclusions cb
        version mods namelist Side.CLIENT with st | st <;>
      simp [mmc_assemble, hgen] at hw
  | SERVER =>
    exact ⟨⟨fun _ => by simp, fun _ => ⟨[], by simp [mmc_assemble]⟩⟩,
      fun _ => by simp [mmc_assemble]⟩

/-- C5: a config bundle entry whose path ends in the separator `/` (and is
not excluded) is written into the output archive with a name that still ends
in `/`, i.e. as an empty-directory marker in the sense of
`zipfile.ZipInfo.is_dir()`, not as a plain file name. -/
theorem c5_dir_entry_preserved (exclusions : Side → List String)
    (namelist : List String) (read_entry : String → String)
    (total_steps : Nat) (version : String) (side : Side) (item : String)
    (hmem : item ∈ namelist) (hexc : item ∉ exclusions side)
    (hdir : is_dir_name item = true) :
    (⟨mmc_modpack_files version ++ "/" ++ item, read_entry item⟩ : ZipEntry) ∈
        run_entries (add_config exclusions namelist read_entry
          (fun _ => false) total_steps version side ⟨[], []⟩) ∧
      zip_entry_is_dir
        ⟨mmc_modpack_files version ++ "/" ++ item, read_entry item⟩ = true := by
  constructor
  · rw [add_config_ok]
    simp only [run_entries, List.nil_append, List.mem_map]
    exact ⟨item, List.mem_filter.mpr ⟨hmem, by simpa using hexc⟩, rfl⟩
  · unfold zip_entry_is_dir
    exact is_dir_name_append _ _ hdir

/-- C6: after the base assemble completes for the MMC format, exactly one
entry is appended — at `mmc_archive_root version ++ "/mmc-pack.json"`, with
the static `MMC_PACK_JSON` bytes — and every entry already present is left
unchanged; `mmc_assemble` produces exactly the base archive passed through
`add_mmc_meta_data`. -/
theorem c6_mmc_metadata_append (cache_loc : ModRef → String)
    (read_file read_entry : String → String) (exclusions : Side → List String)
    (version : String) (mods : List ModRef) (namelist : List String)
    (entries : List ZipEntry) :
    (add_mmc_meta_data version entries).take entries.length = entries ∧
    (add_mmc_meta_data version entries).length = entries.length + 1 ∧
    (add_mmc_meta_data version entries).drop entries.length =
      [⟨mmc_archive_root version ++ "/mmc-pack.json", MMC_PACK_JSON⟩] ∧
    mmc_assemble cache_loc read_file read_entry exclusions (fun _ => false)
        version mods namelist Side.CLIENT =
      .ok (add_mmc_meta_data version
        (run_entries (generic_assemble cache_loc read_file read_entry
          exclusions (fun _ => false) version mods namelist Side.CLIENT))) := by
  refine ⟨?_, ?_, ?_, ?_⟩
  · simp [add_mmc_meta_data, List.take_left]
  · simp [add_mmc_meta_data]
  · simp [add_mmc_meta_data, List.drop_left]
  · rw [generic_assemble_ok]
    simp [mmc_assemble, generic_assemble_ok, run_entries]

/-- If the callback first raises at the `j`-th mod invocation (counting from
the current state's invocation counter), `add_mods` aborts having written
exactly the first `j` mod entries. -/
theorem add_mods_abort (cache_loc : ModRef → String)
    (read_file : String → String) (cb : Nat → Bool) (total_steps : Nat)
    (version : String) :
    ∀ (mods : List ModRef) (st : AsmState) (j : Nat),
      j < mods.length →
      (∀ i, i < j → cb (st.events.length + i) = false) →
      cb (st.events.length + j) = true →
      add_mods cache_loc read_file cb total_steps version mods st =
        .error ⟨st.entries ++ ((mods.take j).map (fun m =>
                  ⟨mmc_modpack_mods version ++ "/" ++ path_name (cache_loc m),
                   read_file (cache_loc m)⟩)),
                st.events ++ List.replicate j (progress_delta total_steps)⟩ := by
  intro mods
  induction mods with
  | nil =>
    intro st j hj
    simp at hj
  | cons m ms ih =>
    intro st j hj hbefore hraise
    cases j with
    | zero =>
      have h0 : cb st.events.length = true := by simpa using hraise
      simp [add_mods, update_progress, h0]
    | succ j2 =>
      have h0 : cb st.events.length = false := by
        simpa using hbefore 0 (Nat.succ_pos j2)
      simp only [add_mods, update_progress, h0, Bool.false_eq_true, if_false]
      rw [ih _ j2 (by simpa using hj)
        (fun i hi => by
          have harith : st.events.length + 1 + i = st.events.length + (i + 1) := by
            omega
          simpa [harith] using hbefore (i + 1) (by omega))
        (by
          have harith : st.events.length + 1 + j2 = st.events.length + (j2 + 1) := by
            omega
          simpa [harith] using hraise)]
      simp [List.replicate_succ]

/-- C7: if the progress callback raises while the `(j+1)`-th included mod is
being processed (it returned normally for the first `j` invocations), the
exception propagates out of `assemble` uncaught and exactly the first `j`
mod entries have been written into the archive. -/
theorem c7_callback_abort (cache_loc : ModRef → String)
    (read_file read_entry : String → String) (exclusions : Side → List String)
    (version : String) (mods : List ModRef) (namelist : List String)
    (cb : Nat → Bool) (j : Nat) (hj : j < mods.length)
    (hbefore : ∀ i, i < j → cb i = false) (hraise : cb j = true) :
    mmc_assemble cache_loc read_file read_entry exclusions cb version mods
        namelist Side.CLIENT =
      .callbackExc ((mods.take j).map (fun m =>
        ⟨mmc_modpack_mods version ++ "/" ++ path_name (cache_loc m),
         read_file (cache_loc m)⟩)) := by
  have habort := add_mods_abort cache_loc read_file cb (mods.length + 1)
    version mods ⟨[], []⟩ j hj (fun i hi => by simpa using hbefore i hi)
    (by simpa using hraise)
  simp [mmc_assemble, generic_assemble, habort]

/-- The two side-selection predicates of `gui.download_mods`, as filters:
the download loop accumulates, per side, exactly the concatenated downloads
of the mods whose affinity selects that side. -/
theorem download_mods_loop_eq (download : ModInfo → List String) :
    ∀ (ms : List ModInfo) (client_paths server_paths : List String),
      download_mods_loop download ms client_paths server_paths =
        (client_paths ++ concat_map download
          (ms.filter (fun m => decide (m.side = "BOTH" ∨ m.side = "CLIENT"))),
         server_paths ++ concat_map download
          (ms.filter (fun m => decide (m.side = "BOTH" ∨ m.side = "SERVER")))) := by
  intro ms
  induction ms with
  | nil => intro client_paths server_paths; simp [download_mods_loop, concat_map]
  | cons m ms2 ih =>
    intro client_paths server_paths
    by_cases hb : m.side = "BOTH"
    · simp [download_mods_loop, hb, ih, concat_map, List.append_assoc]
    · by_cases hc : m.side = "CLIENT"
      · simp [download_mods_loop, hb, hc, ih, concat_map, List.append_assoc]
      · by_cases hs : m.side = "SERVER"
        · simp [download_mods_loop, hb, hc, hs, ih, concat_map, List.append_assoc]
        · simp [download_mods_loop, hb, hc, hs, ih, concat_map]

/-- Membership in a `concat_map` from membership in one of its pieces. -/
theorem mem_concat_map (f : ModInfo → List String) {m : ModInfo} {p : String} :
    ∀ {l : List ModInfo}, m ∈ l → p ∈ f m → p ∈ concat_map f l := by
  intro l
  induction l with
  | nil => intro h; cases h
  | cons x xs ih =>
    intro hm hp
    rcases List.mem_cons.mp hm with h | h
    · subst h
      exact List.mem_append.mpr (Or.inl hp)
    · exact List.mem_append.mpr (Or.inr (ih h hp))

/-- C2: for a non-empty mod list, `download_mods` returns the client and
server collections; the client collection is exactly the concatenated
downloads of the mods whose affinity is BOTH or CLIENT, the server
collection exactly those of the mods whose affinity is BOTH or SERVER — so
a mod's files land in the client collection iff its affinity is CLIENT or
BOTH, in the server collection iff it is SERVER or BOTH, and a BOTH mod's
files land in both. -/
theorem c2_side_partition (download : ModInfo → List String)
    (mods : List ModInfo) (hne : mods ≠ []) :
    ∃ client_paths server_paths,
      download_mods download mods = .ok (client_paths, server_paths) ∧
      client_paths = concat_map download
        (mods.filter (fun m => decide (m.side = "BOTH" ∨ m.side = "CLIENT"))) ∧
      server_paths = concat_map download
        (mods.filter (fun m => decide (m.side = "BOTH" ∨ m.side = "SERVER"))) ∧
      ∀ m ∈ mods,
        ((m.side = "CLIENT" ∨ m.side = "BOTH") →
          ∀ p ∈ download m, p ∈ client_paths) ∧
        ((m.side = "SERVER" ∨ m.side = "BOTH") →
          ∀ p ∈ download m, p ∈ server_paths) := by
  refine ⟨_, _, ?_, rfl, rfl, ?_⟩
  · rw [download_mods, if_neg (by simpa using hne), download_mods_loop_eq]
    simp
  · intro m hm
    constructor
    · intro hside p hp
      refine mem_concat_map download ?_ hp
      rcases hside with h | h <;>
        exact List.mem_filter.mpr ⟨hm, by simp [h]⟩
    · intro hside p hp
      refine mem_concat_map download ?_ hp
      rcases hside with h | h <;>
        exact List.mem_filter.mpr ⟨hm, by simp [h]⟩

/-- C9: `pack_clientpack` applied to an empty list of mod paths does not
produce a configs-only archive: it fails immediately with the
`ZeroDivisionError` from `delta_progress = 100 / len(client_paths)`. -/
theorem c9_empty_modlist_zero_division :
    pack_clientpack (fun _ => "") (fun p => p) [] "2.2.0" =
      .error PackError.zeroDivision := rfl

/-- C10: the displayed progress value never exceeds 100 — after any
non-empty sequence of `_progress_callback` calls, with deltas of any sign
and magnitude and any starting value, the accumulated progress-bar value is
at most 100. -/
theorem c10_progress_clamped (init : ℚ) (deltas : List ℚ)
    (hne : deltas ≠ []) :
    deltas.foldl progress_callback_value init ≤ 100 := by
  have hstep : ∀ v d : ℚ, progress_callback_value v d ≤ 100 := by
    intro v d
    exact min_le_left _ _
  have haux : ∀ (l : List ℚ) (v : ℚ), v ≤ 100 →
      l.foldl progress_callback_value v ≤ 100 := by
    intro l
    induction l with
    | nil => intro v hv; simpa using hv
    | cons d ds ih => intro v hv; exact ih _ (hstep v d)
  cases deltas with
  | nil => exact absurd rfl hne
  | cons d ds => exact haux ds _ (hstep init d)

/-! ### Witnesses -/

/-- Witness for C2 at a concrete one-mod BOTH manifest: the mod's file lands
in both collections. -/
theorem c2_witness :
    download_mods (fun m => [m.name ++ ".jar"]) [⟨"A", "BOTH"⟩] =
      .ok (["A.jar"], ["A.jar"]) := by
  obtain ⟨client_paths, server_paths, h1, h2, h3, _⟩ :=
    c2_side_partition (fun m => [m.name ++ ".jar"]) [⟨"A", "BOTH"⟩] (by decide)
  subst h2
  subst h3
  rw [h1]
  rfl

/-- Witness for C3 at the concrete SERVER side: rejected with nothing
written. -/
theorem c3_witness :
    mmc_assemble (fun m => m.name) (fun _ => "") (fun _ => "") (fun _ => [])
        (fun _ => false) "1.0" [] [] Side.SERVER = .invalidSide [] :=
  (c3_invalid_side_rejection (fun m => m.name) (fun _ => "") (fun _ => "")
    (fun _ => []) (fun _ => false) "1.0" [] [] Side.SERVER).2 (by decide)

/-- Witness for C5 at a concrete bundle holding the directory entry
`sub/`. -/
theorem c5_witness :
    (⟨mmc_modpack_files "1.0" ++ "/" ++ "sub/", ""⟩ : ZipEntry) ∈
        run_entries (add_config (fun _ => []) ["sub/"] (fun _ => "")
          (fun _ => false) 1 "1.0" Side.CLIENT ⟨[], []⟩) ∧
      zip_entry_is_dir ⟨mmc_modpack_files "1.0" ++ "/" ++ "sub/", ""⟩ = true :=
  c5_dir_entry_preserved (fun _ => []) ["sub/"] (fun _ => "") 1 "1.0"
    Side.CLIENT "sub/" (by decide) (by decide) (by decide)

/-- Witness for C7 at a three-mod manifest whose callback raises at its
second invocation: the run aborts with exactly the first mod written. -/
theorem c7_witness :
    mmc_assemble (fun m => m.name) (fun _ => "JAR") (fun _ => "")
        (fun _ => []) (fun i => decide (0 < i)) "1.0"
        [⟨"modA.jar", "1"⟩, ⟨"modB.jar", "1"⟩, ⟨"modC.jar", "1"⟩] []
        Side.CLIENT =
      .callbackExc
        ((([⟨"modA.jar", "1"⟩, ⟨"modB.jar", "1"⟩,
            ⟨"modC.jar", "1"⟩] : List ModRef).take 1).map
          (fun m => ⟨mmc_modpack_mods "1.0" ++ "/" ++ path_name m.name,
            "JAR"⟩)) :=
  c7_callback_abort (fun m => m.name) (fun _ => "JAR") (fun _ => "")
    (fun _ => []) "1.0" [⟨"modA.jar", "1"⟩, ⟨"modB.jar", "1"⟩, ⟨"modC.jar", "1"⟩]
    [] (fun i => decide (0 < i)) 1 (by decide)
    (fun i hi => by
      have h0 : i = 0 := Nat.lt_one_iff.mp hi
      subst h0
      rfl)
    (by decide)

/-- Witness for C10 at a single oversized delta: the displayed value stays
at most 100. -/
theorem c10_witness :
    ([(250 : ℚ)] : List ℚ).foldl progress_callback_value 0 ≤ 100 :=
  c10_progress_clamped 0 [250] (by decide)
